import Mathlib

/-!
Verification of the data pipeline of the Social-Media-Post-Engagement-Dashboard
repository (src/app.py): column-name normalization, the fatal post_id check,
date and numeric coercion, the filter block, and the aggregation views.
The pandas/streamlit operations used by app.py are embedded as executable
Lean functions over lists; a raw CSV table is a header plus rows of optional
string cells (a missing cell is pandas NaN).
-/

namespace App

/-- A raw CSV cell: `none` is an empty cell (pandas NaN), `some s` is text. -/
abbrev Cell := Option String

/-- A raw uploaded table: free-form header names and one cell list per row,
as handed to `load_data` by `pd.read_csv`. -/
structure RawTable where
  cols : List String
  rows : List (List Cell)
deriving Repr, DecidableEq

/-- Python `str.strip` style whitespace test used for column names and cells. -/
def isSpaceChar (c : Char) : Bool :=
  c == ' ' || c == '\t' || c == '\n' || c == '\r'

/-- Python `str.strip`: drop whitespace from both ends. -/
def stripStr (s : String) : String :=
  String.mk (((s.toList.dropWhile isSpaceChar).reverse.dropWhile isSpaceChar).reverse)

/-- Embeds app.py line 23, `col.strip().replace(' ', '_').replace('.', '').lower()`:
trim, turn each space into an underscore, delete each dot, lower-case.
Note the code deletes dots (replaces them with the empty string). -/
def normalizeName (s : String) : String :=
  String.mk ((((stripStr s).toList.map (fun c => if c = ' ' then '_' else c)).filter
    (fun c => c ≠ '.')).map Char.toLower)

/-- The transform the spec describes in section 4.1 (and the code comment on
app.py line 22): trim, replace each space AND each literal dot with an
underscore, lower-case. Kept separate from `normalizeName` to compare the
code against the spec wording. -/
def specNormalizeName (s : String) : String :=
  String.mk (((stripStr s).toList.map (fun c =>
    if c = ' ' then '_' else if c = '.' then '_' else c)).map Char.toLower)

/-- A calendar date at day granularity. -/
structure Date where
  year : Nat
  month : Nat
  day : Nat
deriving Repr, DecidableEq

/-- A timestamp as produced by `pd.to_datetime`: a date plus seconds past
midnight. -/
structure DateTime where
  date : Date
  secs : Nat
deriving Repr, DecidableEq

/-- Gregorian leap-year test. -/
def isLeap (y : Nat) : Bool :=
  (y % 4 == 0 && y % 100 != 0) || y % 400 == 0

/-- Month lengths for a given year, January first. -/
def monthLengths (y : Nat) : List Nat :=
  [31, if isLeap y then 29 else 28, 31, 30, 31, 30, 31, 31, 30, 31, 30, 31]

/-- Days in a given month (1..12) of a given year. -/
def daysInMonth (y m : Nat) : Nat :=
  (monthLengths y).getD (m - 1) 31

/-- Day count of a date in the proleptic Gregorian calendar, with
0001-01-01 as day 1 (which was a Monday). -/
def dayNumber (d : Date) : Nat :=
  let y := d.year - 1
  365 * y + y / 4 - y / 100 + y / 400 + ((monthLengths d.year).take (d.month - 1)).sum + d.day

/-- Weekday index as in pandas `dt.dayofweek`: Monday = 0 .. Sunday = 6. -/
def dayOfWeekNum (d : Date) : Nat :=
  (dayNumber d - 1) % 7

/-- The fixed weekday category list of app.py line 40 (`day_order`),
Monday through Sunday. -/
def day_order : List String :=
  ["Monday", "Tuesday", "Wednesday", "Thursday", "Friday", "Saturday", "Sunday"]

/-- Weekday name as in pandas `dt.day_name()`. -/
def dayName (d : Date) : String :=
  day_order.getD (dayOfWeekNum d) "Monday"

/-- Split a character list on a separator, like Python `str.split(sep)`. -/
def splitOnChar (sep : Char) : List Char → List (List Char)
  | [] => [[]]
  | c :: cs =>
    match splitOnChar sep cs with
    | [] => [[]]
    | g :: gs => if c = sep then [] :: g :: gs else (c :: g) :: gs

/-- Value of a nonempty all-digit character list, else `none`. -/
def digitsVal (l : List Char) : Option Nat :=
  if l ≠ [] ∧ l.all Char.isDigit then
    some (l.foldl (fun a c => 10 * a + (c.toNat - 48)) 0)
  else none

/-- Digit-list value with the empty list reading as 0 (for fraction parts). -/
def natVal (l : List Char) : Nat :=
  l.foldl (fun a c => 10 * a + (c.toNat - 48)) 0

/-- Parse `YYYY-MM-DD` with a calendar-validity check, as the strict core of
`pd.to_datetime`. -/
def parseDateChars (l : List Char) : Option Date :=
  match splitOnChar '-' l with
  | [y, m, d] =>
    match digitsVal y, digitsVal m, digitsVal d with
    | some yv, some mv, some dv =>
      if 1 ≤ mv ∧ mv ≤ 12 ∧ 1 ≤ dv ∧ dv ≤ daysInMonth yv mv then
        some ⟨yv, mv, dv⟩
      else none
    | _, _, _ => none
  | _ => none

/-- Parse `HH:MM[:SS]` into seconds past midnight. -/
def parseTimeChars (l : List Char) : Option Nat :=
  match splitOnChar ':' l with
  | [h, mi] =>
    match digitsVal h, digitsVal mi with
    | some hv, some mv => if hv < 24 ∧ mv < 60 then some (hv * 3600 + mv * 60) else none
    | _, _ => none
  | [h, mi, s] =>
    match digitsVal h, digitsVal mi, digitsVal s with
    | some hv, some mv, some sv =>
      if hv < 24 ∧ mv < 60 ∧ sv < 60 then some (hv * 3600 + mv * 60 + sv) else none
    | _, _, _ => none
  | _ => none

/-- Embeds `pd.to_datetime(x, errors="coerce")` on one cell value:
an ISO date with optional time parses, anything else coerces to NaT (`none`). -/
def parseDateTime (s : String) : Option DateTime :=
  match splitOnChar ' ' (stripStr s).toList with
  | [d] => (parseDateChars d).map (fun dd => ⟨dd, 0⟩)
  | [d, t] =>
    match parseDateChars d, parseTimeChars t with
    | some dd, some tt => some ⟨dd, tt⟩
    | _, _ => none
  | _ => none

/-- Strip one leading sign, reporting whether it was a minus. -/
def parseSign : List Char → Bool × List Char
  | '-' :: rest => (true, rest)
  | '+' :: rest => (false, rest)
  | l => (false, l)

/-- Split a numeric literal at its exponent marker, like Python float
syntax: mantissa before the first e or E, exponent after it. -/
def splitExpChars (l : List Char) : List Char × Option (List Char) :=
  (l.takeWhile (fun c => !(c == 'e' || c == 'E')),
   match l.dropWhile (fun c => !(c == 'e' || c == 'E')) with
   | [] => none
   | _ :: es => some es)

/-- Parse a decimal mantissa into its digit value and fraction length. -/
def parseMantissa (l : List Char) : Option (Nat × Nat) :=
  match splitOnChar '.' l with
  | [i] => (digitsVal i).map (fun n => (n, 0))
  | [i, f] =>
    if (i ≠ [] ∨ f ≠ []) ∧ i.all Char.isDigit ∧ f.all Char.isDigit then
      some (natVal (i ++ f), f.length)
    else none
  | _ => none

/-- Parse a signed exponent. -/
def parseExp : List Char → Option Int
  | '-' :: rest => (digitsVal rest).map (fun n => -(n : Int))
  | '+' :: rest => (digitsVal rest).map (fun n => (n : Int))
  | l => (digitsVal l).map (fun n => (n : Int))

/-- Magnitude of mantissa-digits times ten to the exponent, truncated toward
zero (floor of the non-negative magnitude). -/
def applySci (n fracLen : Nat) (e : Int) : Nat :=
  if (fracLen : Int) ≤ e then n * 10 ^ (e - (fracLen : Int)).toNat
  else n / 10 ^ ((fracLen : Int) - e).toNat

/-- Embeds `pd.to_numeric(x, errors="coerce")` followed by `astype(int)` on a
finite text cell: optional sign, decimal digits with an optional fraction
and an optional scientific exponent; the fractional part is truncated toward
zero as numpy int casting does (values kept exact, no int64 wraparound).
Anything else, including the non-finite literals handled separately by
`isInfStr`, coerces to `none` (NaN for the fillna(0) step). -/
def parseNumStr (s : String) : Option Int :=
  let sl := parseSign ((stripStr s).toList)
  let me := splitExpChars sl.2
  let eo : Option Int := match me.2 with
    | none => some 0
    | some es => parseExp es
  match parseMantissa me.1, eo with
  | some (n, fl), some e =>
    some (if sl.1 then -(applySci n fl e : Int) else (applySci n fl e : Int))
  | _, _ => none

/-- The non-finite float literals Python accepts: inf and infinity in any
case, optionally signed. `pd.to_numeric` parses them to infinities, which
survive fillna(0) and make `astype(int)` raise. -/
def isInfStr (s : String) : Bool :=
  let l := (stripStr s).toList.map Char.toLower
  let l2 : List Char := match l with
    | '-' :: rest => rest
    | '+' :: rest => rest
    | _ => l
  l2 == ['i', 'n', 'f'] || l2 == ['i', 'n', 'f', 'i', 'n', 'i', 't', 'y']

/-- A cell whose numeric parse is a non-finite float (empty cells are NaN,
which fillna handles, so they do not count). -/
def cellInf : Option String → Bool
  | some s => isInfStr s
  | none => false

/-- One canonical post row after `load_data` (the coerced dataframe row). -/
structure Post where
  post_id : String
  post_date : Option DateTime
  day_of_week : Option String
  likes : Int
  shares : Int
  comments : Int
  total_engagement_per_post : Int
  content_type : String
deriving Repr, DecidableEq

/-- Diagnostic severity: `st.error` halts the pipeline, `st.warning` does not. -/
inductive Severity where
  | fatal
  | warning
deriving Repr, DecidableEq

/-- A surfaced diagnostic. -/
structure Diag where
  severity : Severity
  message : String
deriving Repr, DecidableEq

/-- The `st.error` message of app.py line 28, naming the missing column. -/
def errMsgPostId : String :=
  "Error: The column Post_ID (or Post ID) was not found in your CSV. Please ensure your CSV has a column named Post_ID or Post ID."

/-- Capitalize a word as Python `str.capitalize` does on the metric names. -/
def capitalizeWord (s : String) : String :=
  match s.toList with
  | [] => ""
  | c :: rest => String.mk (c.toUpper :: rest)

/-- Cell lookup in a row by (normalized) column name; first matching column. -/
def getCell (cols : List String) (row : List Cell) (name : String) : Option String :=
  match cols.findIdx? (fun c => c = name) with
  | some i => (row.get? i).join
  | none => none

/-- `astype(str)` on one cell: pandas renders NaN as "nan". -/
def cellToStr (c : Option String) : String :=
  match c with
  | some s => s
  | none => "nan"

/-- Metric coercion of app.py lines 50-56: a present column goes through
`pd.to_numeric(errors="coerce").fillna(0).astype(int)`, an absent column is
the constant 0. -/
def metricVal (cols : List String) (row : List Cell) (c : String) : Int :=
  if c ∈ cols then ((getCell cols row c).bind parseNumStr).getD 0 else 0

/-- Build the canonical row from a raw row, given the parsed post_date
(already `none` when the column is absent). Embeds app.py lines 30-64
at row level. -/
def mkPost (cols : List String) (row : List Cell) (pdate : Option DateTime) : Post :=
  let likes := metricVal cols row "likes"
  let shares := metricVal cols row "shares"
  let comments := metricVal cols row "comments"
  { post_id := cellToStr (getCell cols row "post_id")
    post_date := pdate
    day_of_week := pdate.map (fun d => dayName d.date)
    likes := likes
    shares := shares
    comments := comments
    total_engagement_per_post := likes + shares + comments
    content_type :=
      if "content_type" ∈ cols then cellToStr (getCell cols row "content_type") else "Unknown" }

/-- Row coercion: when `post_date` is a column, a row whose date cell fails
`pd.to_datetime` is dropped (`df.dropna(subset=["post_date"])`, app.py
line 35); otherwise every row survives with a NaT date. -/
def coerceRow (cols : List String) (row : List Cell) : Option Post :=
  if "post_date" ∈ cols then
    match (getCell cols row "post_date").bind parseDateTime with
    | some d => some (mkPost cols row (some d))
    | none => none
  else some (mkPost cols row none)

/-- The normalized header of a raw table. -/
def normCols (raw : RawTable) : List String :=
  raw.cols.map normalizeName

/-- The `st.error` message prefix of the except branch at app.py lines
67-69 (the exception detail appended there is elided). -/
def errMsgProcessing : String :=
  "Error loading or processing data. Please check your CSV format."

/-- The `st.warning` of app.py line 43. -/
def dateWarnDiag : Diag :=
  ⟨Severity.warning,
    "Warning: Post_Date column not found. Date-based analysis will be skipped."⟩

/-- The `st.warning` of app.py line 63. -/
def ctWarnDiag : Diag :=
  ⟨Severity.warning,
    "Warning: Content_Type column not found. Post type distribution will be skipped."⟩

/-- The `st.warning` of app.py line 55 for one absent metric column. -/
def metricWarnDiag (c : String) : Diag :=
  ⟨Severity.warning,
    "Warning: " ++ capitalizeWord c ++ " column not found. Setting to 0 for calculations."⟩

/-- How many normalized columns share a label; pandas df[col] on a
duplicated label returns a two-column DataFrame. -/
def countCol (cols : List String) (c : String) : Nat :=
  cols.count c

/-- The rows still in the frame when the metric loop of app.py lines 50-56
runs: the dropna at line 35 has already removed unparseable-date rows when
the date column exists. -/
def survRows (cols : List String) (rows : List (List Cell)) : List (List Cell) :=
  if "post_date" ∈ cols then
    rows.filter (fun row => ((getCell cols row "post_date").bind parseDateTime).isSome)
  else rows

/-- Whether coercing metric column c raises inside the try of app.py:
a duplicated label makes `pd.to_numeric(df[c])` raise a TypeError (DataFrame
argument), and a non-finite parsed value in a surviving row makes
`astype(int)` raise. An absent column is just defaulted, never raising. -/
def metricCrash (cols : List String) (srows : List (List Cell)) (c : String) : Bool :=
  decide (c ∈ cols) &&
    (decide (2 ≤ countCol cols c) ||
      srows.any (fun row => cellInf (getCell cols row c)))

/-- The metric loop of app.py lines 50-56 over likes, shares, comments in
order: emits an absence warning per missing column, and stops at the first
raising column, keeping the warnings already emitted (error case). -/
def metricStage (cols : List String) (srows : List (List Cell)) :
    List String → Except (List Diag) (List Diag)
  | [] => .ok []
  | c :: cs =>
    if metricCrash cols srows c then .error []
    else
      let w : List Diag := if c ∈ cols then [] else [metricWarnDiag c]
      match metricStage cols srows cs with
      | .error ds => .error (w ++ ds)
      | .ok ds => .ok (w ++ ds)

/-- Embeds `load_data` (app.py lines 17-69): normalize the header; halt with
one fatal diagnostic and an empty table when `post_id` is missing; a
duplicated post_date label makes `pd.to_datetime(df[...])` at line 34 raise
into the except branch (fatal + empty, before any warning); otherwise the
date warning is emitted if due, the metric loop runs over the surviving rows
and may raise into the except branch after its earlier warnings; when
nothing raises, every row is coerced and the content-type warning appended.
The except branch of lines 67-69 turns any raise into `st.error` plus an
empty frame, so the fatal diagnostic always ends the emitted list.
(`df['post_id'].astype(str)` at line 30 tolerates duplicated post_id labels:
the frame-to-frame assignment aligns the duplicate columns, so no raise.) -/
def load_data (raw : RawTable) : List Post × List Diag :=
  let cols := normCols raw
  if "post_id" ∈ cols then
    if 2 ≤ countCol cols "post_date" then
      ([], [⟨Severity.fatal, errMsgProcessing⟩])
    else
      let dateWarn : List Diag := if "post_date" ∈ cols then [] else [dateWarnDiag]
      match metricStage cols (survRows cols raw.rows) ["likes", "shares", "comments"] with
      | .error ws => ([], dateWarn ++ ws ++ [⟨Severity.fatal, errMsgProcessing⟩])
      | .ok ws =>
        let ctWarn : List Diag := if "content_type" ∈ cols then [] else [ctWarnDiag]
        (raw.rows.filterMap (coerceRow cols), dateWarn ++ ws ++ ctWarn)
  else ([], [⟨Severity.fatal, errMsgPostId⟩])

/-- Day-granularity date order, used by the `.dt.date` comparisons of the
date filter. -/
def dateKey (d : Date) : Nat :=
  d.year * 10000 + d.month * 100 + d.day

/-- `a` is on the same day as or an earlier day than `b`. -/
def dateLe (a b : Date) : Bool :=
  dateKey a ≤ dateKey b

/-- Embeds the sidebar filter block (app.py lines 122-131): first the
content-type filter, skipped when the sentinel "All" is selected, then the
inclusive day-granularity date filter when enabled (`none` disables it).
The timestamp seconds are discarded by comparing `d.date` only. -/
def apply_filters (posts : List Post) (selected : List String)
    (dateRange : Option (Date × Date)) : List Post :=
  let p1 :=
    if "All" ∈ selected then posts
    else posts.filter (fun r => r.content_type ∈ selected)
  match dateRange with
  | none => p1
  | some (lo, hi) =>
    p1.filter (fun r =>
      match r.post_date with
      | some d => dateLe lo d.date && dateLe d.date hi
      | none => false)

/-- Engagement order for ranking: `a` ranks at least as high as `b`. -/
def engGe (a b : Post) : Prop :=
  b.total_engagement_per_post ≤ a.total_engagement_per_post

instance : DecidableRel engGe := fun a b =>
  inferInstanceAs (Decidable (b.total_engagement_per_post ≤ a.total_engagement_per_post))

instance : IsTotal Post engGe :=
  ⟨fun a b => le_total b.total_engagement_per_post a.total_engagement_per_post⟩

instance : IsTrans Post engGe :=
  ⟨fun _ _ _ h1 h2 => le_trans h2 h1⟩

/-- Stable descending sort by `total_engagement_per_post`; the order
underlying `df.nlargest(n, "total_engagement_per_post")` with its default
keep-first tie handling. -/
def sortDesc (posts : List Post) : List Post :=
  List.insertionSort engGe posts

/-- Embeds `df_filtered.nlargest(20, "total_engagement_per_post")`
(app.py line 176): the first `n` rows in stable descending engagement order. -/
def top_n_by_engagement (posts : List Post) (n : Nat) : List Post :=
  (sortDesc posts).take n

/-- Embeds `df_filtered.loc[df_filtered["total_engagement_per_post"].idxmax()]`
(app.py line 287): `idxmax` picks the first occurrence of the maximum.
`none` on the empty table, which the caller rules out first. -/
def argmax_by_engagement : List Post → Option Post
  | [] => none
  | x :: xs =>
    match argmax_by_engagement xs with
    | none => some x
    | some y =>
      if y.total_engagement_per_post > x.total_engagement_per_post then some y else some x

/-- Embeds `df_filtered.groupby("day_of_week")["total_engagement_per_post"].sum()`
(app.py line 230). Because `day_of_week` is the ordered categorical of app.py
lines 40-41 and the groupby keeps pandas defaults (`observed=False`), the
result has one group per category in Monday-to-Sunday order, an absent
weekday summing to 0. -/
def engagement_by_day (posts : List Post) : List (String × Int) :=
  day_order.map (fun d =>
    (d, ((posts.filter (fun p => p.day_of_week == some d)).map
      (fun p => p.total_engagement_per_post)).sum))

/-- The two-row example table of spec section 8. -/
def exRaw : RawTable :=
  ⟨["post_id", "likes", "shares", "comments", "content_type", "post_date"],
   [[some "1", some "10", some "2", some "1", some "Video", some "2024-01-01"],
    [some "2", some "5", some "5", some "5", some "Image", some "2024-01-02"]]⟩

/-- An upload whose likes cell is a negative number. -/
def rawNeg : RawTable :=
  ⟨["Post ID", "likes"], [[some "1", some "-5"]]⟩

theorem load_data_fst (raw : RawTable) :
    (load_data raw).1 = [] ∨
      (load_data raw).1 = raw.rows.filterMap (coerceRow (normCols raw)) := by
  simp only [load_data]
  split
  · split
    · left
      rfl
    · split
      · left
        rfl
      · right
        rfl
  · left
    rfl

theorem mkPost_total (cols : List String) (row : List Cell) (pdate : Option DateTime) :
    (mkPost cols row pdate).total_engagement_per_post =
      (mkPost cols row pdate).likes + (mkPost cols row pdate).shares +
        (mkPost cols row pdate).comments := rfl

theorem coerceRow_eq_mkPost {cols : List String} {row : List Cell} {p : Post}
    (h : coerceRow cols row = some p) : ∃ pd, p = mkPost cols row pd := by
  unfold coerceRow at h
  split at h
  · split at h
    · exact ⟨_, (Option.some.inj h).symm⟩
    · exact absurd h (by simp)
  · exact ⟨_, (Option.some.inj h).symm⟩

theorem mem_load_data {raw : RawTable} {p : Post} (h : p ∈ (load_data raw).1) :
    ∃ row ∈ raw.rows, ∃ pd, p = mkPost (normCols raw) row pd := by
  rcases load_data_fst raw with he | he
  · rw [he] at h
    simp at h
  · rw [he] at h
    rcases List.mem_filterMap.mp h with ⟨row, hrow, hc⟩
    exact ⟨row, hrow, coerceRow_eq_mkPost hc⟩

theorem mem_apply_filters {posts : List Post} {sel : List String}
    {dr : Option (Date × Date)} {p : Post} (h : p ∈ apply_filters posts sel dr) :
    p ∈ posts := by
  simp only [apply_filters] at h
  split at h
  · split at h
    · exact h
    · exact (List.mem_filter.mp h).1
  · have h1 := (List.mem_filter.mp h).1
    split at h1
    · exact h1
    · exact (List.mem_filter.mp h1).1

/-- C2: the code deletes literal dots from column names instead of replacing
them with underscores as the spec (and the inline comment on app.py line 22)
state: on the header name "Post.Date" the code yields "postdate" while the
specified transform yields "post_date". -/
theorem c2_dot_deleted :
    normalizeName "Post.Date" = "postdate" ∧
    specNormalizeName "Post.Date" = "post_date" ∧
    normalizeName "Post.Date" ≠ specNormalizeName "Post.Date" := by
  exact ⟨rfl, rfl, by decide⟩

/-- C3: every row of the canonical dataset, and every row of any filtered
view of it, has total_engagement_per_post equal to likes + shares + comments. -/
theorem c3_total_invariant (raw : RawTable) (sel : List String)
    (dr : Option (Date × Date)) :
    (∀ p ∈ (load_data raw).1,
      p.total_engagement_per_post = p.likes + p.shares + p.comments) ∧
    (∀ p ∈ apply_filters (load_data raw).1 sel dr,
      p.total_engagement_per_post = p.likes + p.shares + p.comments) := by
  have base : ∀ p ∈ (load_data raw).1,
      p.total_engagement_per_post = p.likes + p.shares + p.comments := by
    intro p hp
    rcases mem_load_data hp with ⟨row, _, pd, rfl⟩
    exact mkPost_total _ _ _
  exact ⟨base, fun p hp => base p (mem_apply_filters hp)⟩

/-- Witness for C3: the invariant evaluated on the spec example table and its
unfiltered view. -/
theorem c3_total_invariant_witness :
    (∀ p ∈ (load_data exRaw).1,
      p.total_engagement_per_post = p.likes + p.shares + p.comments) ∧
    (∀ p ∈ apply_filters (load_data exRaw).1 ["All"] none,
      p.total_engagement_per_post = p.likes + p.shares + p.comments) :=
  c3_total_invariant exRaw ["All"] none

/-- C5 as stated is false on the code: a metric cell holding a negative
number keeps its negative value after coercion, so the coerced metrics are
not always non-negative. On rawNeg the single coerced row has likes = -5. -/
theorem c5_negative_counterexample :
    ((load_data rawNeg).1.map (fun p => p.likes)) = [-5] ∧
    ¬ (∀ p ∈ (load_data rawNeg).1, 0 ≤ p.likes) := by
  exact ⟨by decide, by decide⟩

/-- C5 amended: after coercion each metric equals metricVal of its raw row:
an absent column gives 0 on every row and a cell whose parse fails gives 0;
a cell that parses keeps its (possibly negative) integer value. -/
theorem c5_metric_coercion (raw : RawTable) :
    (∀ p ∈ (load_data raw).1, ∃ row ∈ raw.rows,
      p.likes = metricVal (normCols raw) row "likes" ∧
      p.shares = metricVal (normCols raw) row "shares" ∧
      p.comments = metricVal (normCols raw) row "comments") ∧
    (∀ (cols : List String) (row : List Cell) (c : String),
      c ∉ cols → metricVal cols row c = 0) ∧
    (∀ (cols : List String) (row : List Cell) (c : String),
      (getCell cols row c).bind parseNumStr = none → metricVal cols row c = 0) := by
  refine ⟨?_, ?_, ?_⟩
  · intro p hp
    rcases mem_load_data hp with ⟨row, hrow, pd, rfl⟩
    exact ⟨row, hrow, rfl, rfl, rfl⟩
  · intro cols row c hc
    simp [metricVal, hc]
  · intro cols row c hc
    unfold metricVal
    split
    · rw [hc]
      rfl
    · rfl

/-- Witness for C5 amended: the coercion characterization holds on rawNeg,
whose likes column parses to a negative value and whose shares and comments
columns are absent. -/
theorem c5_metric_coercion_witness :
    (∀ p ∈ (load_data rawNeg).1, ∃ row ∈ rawNeg.rows,
      p.likes = metricVal (normCols rawNeg) row "likes" ∧
      p.shares = metricVal (normCols rawNeg) row "shares" ∧
      p.comments = metricVal (normCols rawNeg) row "comments") ∧
    (∀ (cols : List String) (row : List Cell) (c : String),
      c ∉ cols → metricVal cols row c = 0) :=
  ⟨(c5_metric_coercion rawNeg).1, (c5_metric_coercion rawNeg).2.1⟩

/-- C6: with the sentinel "All" among the selected content types the category
dimension of apply_filters is the identity: the result coincides with the
filter run with only "All" selected, and with no date filter the input comes
back unchanged. -/
theorem c6_all_sentinel_identity (posts : List Post) (sel : List String)
    (dr : Option (Date × Date)) (h : "All" ∈ sel) :
    apply_filters posts sel dr = apply_filters posts ["All"] dr ∧
    apply_filters posts sel none = posts := by
  have hAll : "All" ∈ ["All"] := List.mem_singleton.mpr rfl
  constructor
  · unfold apply_filters
    rw [if_pos h, if_pos hAll]
  · unfold apply_filters
    rw [if_pos h]

/-- Witness for C6: the identity evaluated on the spec example table. -/
theorem c6_all_sentinel_identity_witness :
    apply_filters (load_data exRaw).1 ["All", "Video"] none = (load_data exRaw).1 :=
  (c6_all_sentinel_identity (load_data exRaw).1 ["All", "Video"] none (by decide)).2

/-- C7: a row passes the date filter exactly when it passes the category
filter and its post_date, at day granularity (seconds past midnight
discarded), lies in the selected range inclusively on both ends; on the spec
example, the range 2024-01-01 to 2024-01-01 keeps only post "1". -/
theorem c7_date_filter_inclusive :
    (∀ (posts : List Post) (sel : List String) (lo hi : Date) (r : Post),
      r ∈ apply_filters posts sel (some (lo, hi)) ↔
        r ∈ apply_filters posts sel none ∧
        ∃ d, r.post_date = some d ∧ dateLe lo d.date ∧ dateLe d.date hi) ∧
    ((apply_filters (load_data exRaw).1 ["All"]
        (some (⟨2024, 1, 1⟩, ⟨2024, 1, 1⟩))).map (fun p => p.post_id) = ["1"]) := by
  constructor
  · intro posts sel lo hi r
    unfold apply_filters
    rw [List.mem_filter]
    constructor
    · rintro ⟨h1, h2⟩
      refine ⟨h1, ?_⟩
      cases hd : r.post_date with
      | none => rw [hd] at h2; exact absurd h2 (by simp)
      | some d =>
        rw [hd] at h2
        simp only [Bool.and_eq_true] at h2
        exact ⟨d, rfl, h2.1, h2.2⟩
    · rintro ⟨h1, d, hd, hlo, hhi⟩
      refine ⟨h1, ?_⟩
      rw [hd]
      simp only [Bool.and_eq_true]
      exact ⟨hlo, hhi⟩
  · decide

theorem orderedInsert_filter_key (r : Post) (k : Int) (l : List Post) :
    (List.orderedInsert engGe r l).filter
        (fun p => p.total_engagement_per_post == k) =
      if r.total_engagement_per_post == k then
        r :: l.filter (fun p => p.total_engagement_per_post == k)
      else l.filter (fun p => p.total_engagement_per_post == k) := by
  induction l with
  | nil =>
    cases hk : r.total_engagement_per_post == k <;>
      simp [List.orderedInsert, List.filter, hk]
  | cons b bs ih =>
    by_cases hrb : engGe r b
    · simp only [List.orderedInsert, if_pos hrb]
      cases hk : r.total_engagement_per_post == k <;>
        simp [List.filter_cons, hk]
    · simp only [List.orderedInsert, if_neg hrb, List.filter_cons, ih]
      by_cases hkr : (r.total_engagement_per_post == k) = true
      · have hrval : r.total_engagement_per_post = k := by
          exact beq_iff_eq.mp hkr
        have hkb : (b.total_engagement_per_post == k) = false := by
          apply beq_eq_false_iff_ne.mpr
          intro hb
          exact hrb (le_of_eq (hb.trans hrval.symm))
        simp [hkr, hkb]
      · simp [hkr]

theorem sortDesc_filter_key (k : Int) (l : List Post) :
    (sortDesc l).filter (fun p => p.total_engagement_per_post == k) =
      l.filter (fun p => p.total_engagement_per_post == k) := by
  induction l with
  | nil => rfl
  | cons x xs ih =>
    simp only [sortDesc, List.insertionSort] at ih ⊢
    rw [orderedInsert_filter_key, ih, List.filter_cons]

/-- C8: the top-20 view has at most 20 rows, each a row of the input, in
descending engagement order; the underlying sort is stable, leaving the
rows of any fixed engagement value in their original relative order, and the
view is its 20-row prefix. -/
theorem c8_top_n_by_engagement (posts : List Post) :
    (top_n_by_engagement posts 20).length ≤ 20 ∧
    (∀ p ∈ top_n_by_engagement posts 20, p ∈ posts) ∧
    List.Pairwise engGe (top_n_by_engagement posts 20) ∧
    (∀ k : Int,
      (sortDesc posts).filter (fun p => p.total_engagement_per_post == k) =
        posts.filter (fun p => p.total_engagement_per_post == k)) ∧
    top_n_by_engagement posts 20 = (sortDesc posts).take 20 := by
  refine ⟨?_, ?_, ?_, fun k => sortDesc_filter_key k posts, rfl⟩
  · exact List.length_take_le 20 _
  · intro p hp
    exact (List.perm_insertionSort engGe posts).subset (List.take_subset _ _ hp)
  · exact List.Pairwise.sublist (List.take_sublist _ _)
      (List.sorted_insertionSort engGe posts)

/-- Witness for C8: the top-20 contract evaluated on the spec example table. -/
theorem c8_top_n_by_engagement_witness :
    (top_n_by_engagement (load_data exRaw).1 20).length ≤ 20 ∧
    (∀ p ∈ top_n_by_engagement (load_data exRaw).1 20, p ∈ (load_data exRaw).1) ∧
    List.Pairwise engGe (top_n_by_engagement (load_data exRaw).1 20) :=
  ⟨(c8_top_n_by_engagement (load_data exRaw).1).1,
   (c8_top_n_by_engagement (load_data exRaw).1).2.1,
   (c8_top_n_by_engagement (load_data exRaw).1).2.2.1⟩

theorem argmax_isSome {l : List Post} (h : l ≠ []) :
    (argmax_by_engagement l).isSome := by
  cases l with
  | nil => exact absurd rfl h
  | cons x xs =>
    simp only [argmax_by_engagement]
    cases argmax_by_engagement xs with
    | none => rfl
    | some y =>
      split
      · rfl
      · split
        · rfl
        · rfl

/-- C9: on a non-empty table argmax_by_engagement returns a row of the table
whose engagement bounds every row, and it is the first such row: every
strictly earlier row has strictly smaller engagement. On the spec example the
canonical totals are 13 and 15 and argmax returns post "2". -/
theorem c9_argmax_first_max :
    (∀ posts : List Post, posts ≠ [] →
      ∃ r, argmax_by_engagement posts = some r ∧ r ∈ posts ∧
        (∀ p ∈ posts,
          p.total_engagement_per_post ≤ r.total_engagement_per_post) ∧
        ∃ i, posts.get? i = some r ∧
          ∀ j, j < i → ∀ q, posts.get? j = some q →
            q.total_engagement_per_post < r.total_engagement_per_post) ∧
    ((load_data exRaw).1.map (fun p => p.total_engagement_per_post) = [13, 15]) ∧
    ((argmax_by_engagement (load_data exRaw).1).map (fun p => p.post_id) = some "2") := by
  refine ⟨?_, by decide, by decide⟩
  intro posts
  induction posts with
  | nil => intro h; exact absurd rfl h
  | cons x xs ih =>
    intro _
    cases hxs : argmax_by_engagement xs with
    | none =>
      have hnil : xs = [] := by
        by_contra hne
        have := argmax_isSome hne
        rw [hxs] at this
        exact absurd this (by simp)
      subst hnil
      refine ⟨x, ?_, List.mem_singleton.mpr rfl, ?_, 0, rfl, ?_⟩
      · simp [argmax_by_engagement]
      · intro p hp
        rcases List.mem_singleton.mp hp with rfl
        exact le_refl _
      · intro j hj
        exact absurd hj (Nat.not_lt_zero j)
    | some y =>
      have hne : xs ≠ [] := by
        intro h
        subst h
        simp [argmax_by_engagement] at hxs
      obtain ⟨r, hreq, hrmem, hrmax, i, hi, hfirst⟩ := ih hne
      have hry : r = y := Option.some.inj (hreq.symm.trans hxs)
      subst hry
      by_cases hgt : x.total_engagement_per_post < r.total_engagement_per_post
      · refine ⟨r, ?_, List.mem_cons_of_mem x hrmem, ?_, i + 1, ?_, ?_⟩
        · simp only [argmax_by_engagement, hxs]
          exact if_pos hgt
        · intro p hp
          rcases List.mem_cons.mp hp with rfl | hp2
          · exact le_of_lt hgt
          · exact hrmax p hp2
        · simpa using hi
        · intro j hj q hq
          cases j with
          | zero =>
            rcases Option.some.inj hq with rfl
            exact hgt
          | succ j2 =>
            exact hfirst j2 (Nat.lt_of_succ_lt_succ hj) q hq
      · refine ⟨x, ?_, List.mem_cons_self x xs, ?_, 0, rfl, ?_⟩
        · simp only [argmax_by_engagement, hxs]
          exact if_neg hgt
        · intro p hp
          rcases List.mem_cons.mp hp with rfl | hp2
          · exact le_refl _
          · exact le_trans (hrmax p hp2) (not_lt.mp hgt)
        · intro j hj
          exact absurd hj (Nat.not_lt_zero j)

/-- Witness for C9: the first-maximum contract applied to the spec example
table, whose argmax row is post "2". -/
theorem c9_argmax_first_max_witness :
    ∃ r, argmax_by_engagement (load_data exRaw).1 = some r ∧
      r ∈ (load_data exRaw).1 ∧
      (∀ p ∈ (load_data exRaw).1,
        p.total_engagement_per_post ≤ r.total_engagement_per_post) ∧
      ∃ i, (load_data exRaw).1.get? i = some r ∧
        ∀ j, j < i → ∀ q, (load_data exRaw).1.get? j = some q →
          q.total_engagement_per_post < r.total_engagement_per_post :=
  c9_argmax_first_max.1 (load_data exRaw).1 (by decide)

/-- C10: because day_of_week is the ordered categorical over the seven
weekday names and the groupby keeps the pandas default of including
unobserved categories, the weekday view of any non-empty table has exactly
seven groups, labelled Monday through Sunday in order, each holding the
engagement sum of its rows, with sum 0 for a weekday no row falls on. -/
theorem c10_weekday_zero_fill (posts : List Post) (_hne : posts ≠ []) :
    (engagement_by_day posts).length = 7 ∧
    (engagement_by_day posts).map Prod.fst = day_order ∧
    (∀ d ∈ day_order,
      (d, ((posts.filter (fun p => p.day_of_week == some d)).map
        (fun p => p.total_engagement_per_post)).sum) ∈ engagement_by_day posts) ∧
    (∀ d ∈ day_order, (∀ p ∈ posts, p.day_of_week ≠ some d) →
      (d, 0) ∈ engagement_by_day posts) := by
  refine ⟨rfl, rfl, ?_, ?_⟩
  · intro d hd
    exact List.mem_map_of_mem _ hd
  · intro d hd habs
    have hfil : posts.filter (fun p => p.day_of_week == some d) = [] := by
      apply List.filter_eq_nil_iff.mpr
      intro p hp
      simp only [beq_iff_eq]
      exact fun he => habs p hp (by simpa using he)
    unfold engagement_by_day
    apply List.mem_map.mpr
    refine ⟨d, hd, ?_⟩
    simp [hfil]

/-- Witness for C10: the weekday view of the spec example table has seven
groups; Wednesday is absent from the data and sums to 0. -/
theorem c10_weekday_zero_fill_witness :
    (engagement_by_day (load_data exRaw).1).length = 7 ∧
    ("Wednesday", 0) ∈ engagement_by_day (load_data exRaw).1 := by
  refine ⟨(c10_weekday_zero_fill (load_data exRaw).1 ?_).1,
    (c10_weekday_zero_fill (load_data exRaw).1 ?_).2.2.2 "Wednesday" ?_ ?_⟩
  · decide
  · decide
  · decide
  · decide

end App
